import Mathlib

/-!
Verification of the matching and settlement core of the exchange repository.

The Go sources are shallowly embedded:
* prices and quantities (Go `float64`) become `Rat`;
* `uuid.UUID` identities become `Nat`;
* the `map[uuid.UUID]*models.Order` index becomes an association list
  `List (Nat × Order)`; Go mutates orders in place through shared pointers,
  so every in-place quantity update is mirrored at every alias (side slice
  and index entry) by the embedding;
* each `fmt.Errorf` site becomes a constructor of an error inductive and
  fallible functions return `Except`;
* the mutable `*OrderBook` receiver becomes explicit state passing: a
  function that may fail but also mutates returns a pair of the
  `Except` result and the (possibly updated) book.
-/

namespace Exchange

/-- Embeds `models.Order` (backend/internal/models/models.go): id, user,
symbol, type, side, price, quantity, status.  The Go field `Type` is named
`otype` because `Type` is a Lean keyword.  Timestamps are omitted: no claim
mentions them. -/
structure Order where
  id : Nat
  userId : Nat
  symbol : String
  otype : String
  side : String
  price : Rat
  quantity : Rat
  status : String
deriving DecidableEq

/-- Embeds `orderbook.Trade`: taker (incoming) order id, maker (resting)
order id, symbol, execution price and quantity.  The `time.Now()` timestamp
is ambient and omitted. -/
structure Trade where
  takerOrderId : Nat
  makerOrderId : Nat
  symbol : String
  price : Rat
  quantity : Rat
deriving DecidableEq

/-- Embeds `orderbook.OrderBook`: symbol, bid slice, ask slice and the
id-to-order lookup map `Orders`. -/
structure OrderBook where
  symbol : String
  bids : List Order
  asks : List Order
  orders : List (Nat × Order)
deriving DecidableEq

/-- Error sites of the order-book methods, one constructor per
`fmt.Errorf` call site in the book code. -/
inductive BookError where
  /-- order symbol %s does not match book symbol %s -/
  | symbolMismatch : BookError
  /-- only limit orders can be added directly to the book -/
  | notLimit : BookError
  /-- order %s already exists in the book -/
  | duplicateId : BookError
  /-- order %s not found in book -/
  | notFound : BookError
deriving DecidableEq

/-- Lookup in the embedded `Orders` map: `order, exists := ob.Orders[id]`. -/
def mapLookup (m : List (Nat × Order)) (k : Nat) : Option Order :=
  match m.find? (fun e => e.1 = k) with
  | some e => some e.2
  | none => none

/-- Map assignment `m[k] = v` (insert or overwrite). -/
def mapInsert (m : List (Nat × Order)) (k : Nat) (v : Order) : List (Nat × Order) :=
  if (m.find? (fun e => e.1 = k)).isSome then
    m.map (fun e => if e.1 = k then (k, v) else e)
  else
    m ++ [(k, v)]

/-- Map deletion `delete(m, k)`. -/
def mapErase (m : List (Nat × Order)) (k : Nat) : List (Nat × Order) :=
  m.filter (fun e => e.1 ≠ k)

/-- Mirrors a Go in-place mutation of an order object reached through a
pointer alias: every map entry holding that key is updated (a mutation of
an object the map does not hold changes nothing). -/
def mapUpdate (m : List (Nat × Order)) (k : Nat) (v : Order) : List (Nat × Order) :=
  m.map (fun e => if e.1 = k then (k, v) else e)

/-- Embeds `NewOrderBook`. -/
def NewOrderBook (symbol : String) : OrderBook :=
  { symbol := symbol, bids := [], asks := [], orders := [] }

/-- Embeds the buy branch of `matchOrder`: walk the ask slice from the
front while the incoming order has remaining quantity and its price crosses
the best ask; each step trades `min` of the two remaining quantities at the
resting ask's price, decrements both orders and either removes the filled
ask (from slice and map, staying at the same slice position) or keeps the
partially filled ask in place and advances.  The map updates mirror Go's
in-place pointer mutations of the incoming order and of the ask. -/
def matchBuy (sym : String) :
    Order → List Order → List (Nat × Order) → List Trade × Order × List Order × List (Nat × Order)
  | incoming, [], idx => ([], incoming, [], idx)
  | incoming, ask :: rest, idx =>
    if incoming.quantity > 0 then
      if incoming.price ≥ ask.price then
        let q := min incoming.quantity ask.quantity
        let t : Trade := { takerOrderId := incoming.id, makerOrderId := ask.id,
                           symbol := sym, price := ask.price, quantity := q }
        let incoming' : Order := { incoming with quantity := incoming.quantity - q }
        let ask' : Order := { ask with quantity := ask.quantity - q }
        let idx1 := mapUpdate idx incoming.id incoming'
        if ask'.quantity = 0 then
          let r := matchBuy sym incoming' rest (mapErase idx1 ask.id)
          (t :: r.1, r.2.1, r.2.2.1, r.2.2.2)
        else
          let r := matchBuy sym incoming' rest (mapUpdate idx1 ask.id ask')
          (t :: r.1, r.2.1, ask' :: r.2.2.1, r.2.2.2)
      else ([], incoming, ask :: rest, idx)
    else ([], incoming, ask :: rest, idx)

/-- Embeds the sell branch of `matchOrder`: symmetric to `matchBuy`, walking
the bid slice while the incoming sell's price is at most the best bid. -/
def matchSell (sym : String) :
    Order → List Order → List (Nat × Order) → List Trade × Order × List Order × List (Nat × Order)
  | incoming, [], idx => ([], incoming, [], idx)
  | incoming, bid :: rest, idx =>
    if incoming.quantity > 0 then
      if incoming.price ≤ bid.price then
        let q := min incoming.quantity bid.quantity
        let t : Trade := { takerOrderId := incoming.id, makerOrderId := bid.id,
                           symbol := sym, price := bid.price, quantity := q }
        let incoming' : Order := { incoming with quantity := incoming.quantity - q }
        let bid' : Order := { bid with quantity := bid.quantity - q }
        let idx1 := mapUpdate idx incoming.id incoming'
        if bid'.quantity = 0 then
          let r := matchSell sym incoming' rest (mapErase idx1 bid.id)
          (t :: r.1, r.2.1, r.2.2.1, r.2.2.2)
        else
          let r := matchSell sym incoming' rest (mapUpdate idx1 bid.id bid')
          (t :: r.1, r.2.1, bid' :: r.2.2.1, r.2.2.2)
      else ([], incoming, bid :: rest, idx)
    else ([], incoming, bid :: rest, idx)

/-- Embeds `matchOrder`: dispatch on the incoming side, consuming the
opposite side's slice and the shared id map. -/
def matchOrder (ob : OrderBook) (incoming : Order) : List Trade × Order × OrderBook :=
  if incoming.side = "buy" then
    let r := matchBuy ob.symbol incoming ob.asks ob.orders
    (r.1, r.2.1, { ob with asks := r.2.2.1, orders := r.2.2.2 })
  else
    let r := matchSell ob.symbol incoming ob.bids ob.orders
    (r.1, r.2.1, { ob with bids := r.2.2.1, orders := r.2.2.2 })

/-- Insertion at a slice index, embedding the Go make-space / shift-right /
assign sequence used by `addBid` and `addAsk` (the index is always at most
the slice length). -/
def insertAt (i : Nat) (o : Order) : List Order → List Order :=
  match i with
  | 0 => fun l => o :: l
  | i + 1 => fun l =>
    match l with
    | [] => [o]
    | x :: xs => x :: insertAt i o xs

/-- Embeds `addBid`: `sort.Search` returns the least index whose element
satisfies the (monotone, since bids are price-sorted descending) predicate
`Bids[j].Price <= order.Price`, or the length if none does; the order is
inserted there. -/
def addBid (bids : List Order) (order : Order) : List Order :=
  insertAt (bids.findIdx (fun b => b.price ≤ order.price)) order bids

/-- Embeds `addAsk`: least index with `Asks[j].Price >= order.Price`. -/
def addAsk (asks : List Order) (order : Order) : List Order :=
  insertAt (asks.findIdx (fun a => a.price ≥ order.price)) order asks

/-- Embeds `OrderBook.AddOrder`: validate symbol, type and id uniqueness
(each early return leaves the book untouched), insert the incoming order
into the id map, run matching, and if the incoming order still has
remaining quantity insert it into its side's slice. -/
def AddOrder (ob : OrderBook) (order : Order) : Except BookError (List Trade) × OrderBook :=
  if order.symbol ≠ ob.symbol then (Except.error BookError.symbolMismatch, ob)
  else if order.otype ≠ "limit" then (Except.error BookError.notLimit, ob)
  else if (mapLookup ob.orders order.id).isSome then (Except.error BookError.duplicateId, ob)
  else
    let ob1 : OrderBook := { ob with orders := mapInsert ob.orders order.id order }
    let r := matchOrder ob1 order
    let trades := r.1
    let order' := r.2.1
    let ob2 := r.2.2
    let ob3 :=
      if order'.quantity > 0 then
        if order'.side = "buy" then { ob2 with bids := addBid ob2.bids order' }
        else { ob2 with asks := addAsk ob2.asks order' }
      else ob2
    (Except.ok trades, ob3)

/-- Embeds the cancellation scan: remove the first slice element whose id
matches, then stop (the Go loop breaks after the first hit). -/
def removeFirstById : List Order → Nat → List Order
  | [], _ => []
  | o :: rest, i => if o.id = i then rest else o :: removeFirstById rest i

/-- Embeds `OrderBook.CancelOrder`: not-found error if the id is absent
from the map, otherwise delete the map entry, remove the order from the
slice chosen by its side, and return the removed order. -/
def CancelOrder (ob : OrderBook) (orderId : Nat) : Except BookError Order × OrderBook :=
  match mapLookup ob.orders orderId with
  | none => (Except.error BookError.notFound, ob)
  | some order =>
    let idx := mapErase ob.orders orderId
    if order.side = "buy" then
      (Except.ok order, { ob with orders := idx, bids := removeFirstById ob.bids orderId })
    else
      (Except.ok order, { ob with orders := idx, asks := removeFirstById ob.asks orderId })

/-- Embeds `orderbook.BookLevel`. -/
structure BookLevel where
  price : Rat
  quantity : Rat
deriving DecidableEq

/-- Embeds `orderbook.OrderBookDepth`. -/
structure OrderBookDepth where
  symbol : String
  bids : List BookLevel
  asks : List BookLevel
deriving DecidableEq

/-- Embeds `levelMap[price] += quantity` (a Go map read of a missing key
yields the zero value). -/
def levelAdd (m : List (Rat × Rat)) (p q : Rat) : List (Rat × Rat) :=
  if (m.find? (fun e => e.1 = p)).isSome then
    m.map (fun e => if e.1 = p then (p, e.2 + q) else e)
  else
    m ++ [(p, q)]

/-- The aggregation loop of `GetDepth` over one side. -/
def levelMapOf (orders : List Order) : List (Rat × Rat) :=
  orders.foldl (fun m o => levelAdd m o.price o.quantity) []

/-- Go map read `levelMap[price]` (zero value when absent). -/
def levelGet (m : List (Rat × Rat)) (p : Rat) : Rat :=
  match m.find? (fun e => e.1 = p) with
  | some e => e.2
  | none => 0

/-- Embeds `GetDepth`: aggregate each side's quantities per price into a
map, collect the keys, sort them (bids descending, asks ascending — the Go
map iteration order is immaterial because the keys are distinct and the
sort makes the result canonical), and emit one level per key. -/
def GetDepth (ob : OrderBook) : OrderBookDepth :=
  let mB := levelMapOf ob.bids
  let bidPrices := (mB.map (fun e => e.1)).insertionSort (fun a b => a ≥ b)
  let mA := levelMapOf ob.asks
  let askPrices := (mA.map (fun e => e.1)).insertionSort (fun a b => a ≤ b)
  { symbol := ob.symbol,
    bids := bidPrices.map (fun p => { price := p, quantity := levelGet mB p }),
    asks := askPrices.map (fun p => { price := p, quantity := levelGet mA p }) }

/-- Embeds `models.Balance`: available and locked amounts.  The user and
asset live in the key of the balances table; the `updated_at` timestamp is
omitted. -/
structure Balance where
  available : Rat
  locked : Rat
deriving DecidableEq

/-- The `balances` table, keyed by its primary key (user_id, asset). -/
abbrev Ledger := List ((Nat × String) × Balance)

/-- Row lookup `SELECT ... FROM balances WHERE user_id = $1 AND asset = $2`
(`GetBalance` / `GetBalanceInTx`). -/
def getBalance (l : Ledger) (u : Nat) (a : String) : Option Balance :=
  match l.find? (fun e => e.1 = (u, a)) with
  | some e => some e.2
  | none => none

/-- A SQL UPDATE of the row at a primary key: affects the existing row
with that key and nothing else. -/
def setBalance (l : Ledger) (u : Nat) (a : String) (b : Balance) : Ledger :=
  l.map (fun e => if e.1 = (u, a) then ((u, a), b) else e)

/-- Embeds `GetOrCreateBalanceInTx`: insert a zero-valued row when the key
is absent, otherwise leave the table alone. -/
def getOrCreateBalance (l : Ledger) (u : Nat) (a : String) : Ledger :=
  match getBalance l u a with
  | some _ => l
  | none => l ++ [((u, a), { available := 0, locked := 0 })]

/-- Error outcomes of `database.LockFunds`, split as the caller observes
them: the `amount <= 0` guard returns the message "lock amount must be
positive", while every failure of the guarded UPDATE (missing row, failed
re-read, or insufficient available funds) returns a message containing
"insufficient funds" — the substring `handlers.CreateOrder` matches on. -/
inductive LockError where
  | amountNotPositive : LockError
  | insufficientFunds : LockError
deriving DecidableEq

/-- Embeds `database.LockFunds`: reject a non-positive amount, then run
`UPDATE balances SET available = available - $1, locked = locked + $1
WHERE user_id = $2 AND asset = $3 AND available >= $1`; anything other
than exactly one affected row (missing row or insufficient available) is
the insufficient-funds error.  A failing call affects zero rows, so the
error carries no ledger and the caller keeps the unchanged one. -/
def LockFunds (l : Ledger) (u : Nat) (a : String) (amount : Rat) : Except LockError Ledger :=
  if amount ≤ 0 then Except.error LockError.amountNotPositive
  else
    match getBalance l u a with
    | some b =>
      if b.available ≥ amount then
        Except.ok (setBalance l u a
          { available := b.available - amount, locked := b.locked + amount })
      else Except.error LockError.insufficientFunds
    | none => Except.error LockError.insufficientFunds

/-- Error outcomes of `database.UnlockFunds`: the non-positive-amount
guard versus the failure of the guarded UPDATE. -/
inductive UnlockError where
  | amountNotPositive : UnlockError
  | insufficientLockedFunds : UnlockError
deriving DecidableEq

/-- Embeds `database.UnlockFunds`: reject a non-positive amount, then run
`UPDATE balances SET available = available + $1, locked = locked - $1
WHERE user_id = $2 AND asset = $3 AND locked >= $1`; anything other than
exactly one affected row is the failed-unlock error. -/
def UnlockFunds (l : Ledger) (u : Nat) (a : String) (amount : Rat) : Except UnlockError Ledger :=
  if amount ≤ 0 then Except.error UnlockError.amountNotPositive
  else
    match getBalance l u a with
    | some b =>
      if b.locked ≥ amount then
        Except.ok (setBalance l u a
          { available := b.available + amount, locked := b.locked - amount })
      else Except.error UnlockError.insufficientLockedFunds
    | none => Except.error UnlockError.insufficientLockedFunds

/-- Error outcomes of `database.UpdateBalancesForFill`. -/
inductive FillError where
  | decreaseLockedFailed : FillError
  | invalidSide : FillError
deriving DecidableEq

/-- The upsert `INSERT INTO balances (user_id, asset, available, locked)
VALUES ($1, $2, $3, 0) ON CONFLICT (user_id, asset) DO UPDATE SET
available = balances.available + $3`. -/
def upsertAvailable (l : Ledger) (u : Nat) (a : String) (amount : Rat) : Ledger :=
  match getBalance l u a with
  | some b => setBalance l u a { available := b.available + amount, locked := b.locked }
  | none => l ++ [((u, a), { available := amount, locked := 0 })]

/-- Embeds `database.UpdateBalancesForFill` for one participant: on the
buy side, decrement the locked quote balance (guarded UPDATE requiring
`locked >= quoteAmount`; zero affected rows is an error) and then upsert
the available base balance; symmetric on the sell side; any other side
string is rejected. -/
def UpdateBalancesForFill (l : Ledger) (u : Nat) (baseAsset quoteAsset : String)
    (baseAmount quoteAmount : Rat) (side : String) : Except FillError Ledger :=
  if side = "buy" then
    match getBalance l u quoteAsset with
    | some b =>
      if b.locked ≥ quoteAmount then
        Except.ok (upsertAvailable
          (setBalance l u quoteAsset { available := b.available, locked := b.locked - quoteAmount })
          u baseAsset baseAmount)
      else Except.error FillError.decreaseLockedFailed
    | none => Except.error FillError.decreaseLockedFailed
  else if side = "sell" then
    match getBalance l u baseAsset with
    | some b =>
      if b.locked ≥ baseAmount then
        Except.ok (upsertAvailable
          (setBalance l u baseAsset { available := b.available, locked := b.locked - baseAmount })
          u quoteAsset quoteAmount)
      else Except.error FillError.decreaseLockedFailed
    | none => Except.error FillError.decreaseLockedFailed
  else Except.error FillError.invalidSide

/-- Modelled from the spec: trade settlement is left unimplemented in the
repository — `processTrades` is a placeholder whose TODO list says to call
`database.UpdateBalancesForFill` for maker and taker inside one DB
transaction, and no code performs the two-user fill.  Following section
4.3 of the spec, `ApplyFill` runs the buy-side half for the buyer and the
sell-side half for the seller as a single atomic unit of work: an error
from either half aborts the whole transaction (the error carries no
ledger, so the caller keeps the pre-call state). -/
def ApplyFill (l : Ledger) (buyer seller : Nat) (baseAsset quoteAsset : String)
    (baseAmount quoteAmount : Rat) : Except FillError Ledger :=
  match UpdateBalancesForFill l buyer baseAsset quoteAsset baseAmount quoteAmount "buy" with
  | Except.error e => Except.error e
  | Except.ok l1 => UpdateBalancesForFill l1 seller baseAsset quoteAsset baseAmount quoteAmount "sell"

/-- One ledger call in a sequence: a `LockFunds` or an `UnlockFunds` with
its arguments. -/
inductive LedgerOp where
  | lock (u : Nat) (a : String) (amount : Rat) : LedgerOp
  | unlock (u : Nat) (a : String) (amount : Rat) : LedgerOp

/-- Applies one call to the table: on success the updated table, on
failure the unchanged one (the failing guarded UPDATE affected no row). -/
def applyOp (l : Ledger) (op : LedgerOp) : Ledger :=
  match op with
  | LedgerOp.lock u a amount =>
    match LockFunds l u a amount with
    | Except.ok l' => l'
    | Except.error _ => l
  | LedgerOp.unlock u a amount =>
    match UnlockFunds l u a amount with
    | Except.ok l' => l'
    | Except.error _ => l

/-- The sum `available + locked` of one (user, asset) balance, zero for
an absent row. -/
def totalOf (l : Ledger) (u : Nat) (a : String) : Rat :=
  match getBalance l u a with
  | some b => b.available + b.locked
  | none => 0

/-- Embeds `handlers.CreateOrderRequest` after the trim/upper/lower-case
normalisation performed at the top of `handlers.CreateOrder`. -/
structure CreateOrderRequest where
  symbol : String
  otype : String
  side : String
  price : Rat
  quantity : Rat
deriving DecidableEq

/-- The error responses of the order handlers that matter to the claims:
the 400 validation rejections, the 501 market-buy rejection (issued before
any funds are locked), a failed fund lock, the `database.CancelOrder`
failures (not found / not owned / not open), the pending market-buy
cancellation 500, a failed unlock, and the index-out-of-range panic Go
would hit on a malformed stored symbol. -/
inductive HandlerError where
  | badRequest : HandlerError
  | marketBuyNotSupported : HandlerError
  | lockFailed (e : LockError) : HandlerError
  | orderNotCancellable : HandlerError
  | marketBuyCancelPending : HandlerError
  | unlockFailed (e : UnlockError) : HandlerError
  | symbolPanic : HandlerError
deriving DecidableEq

/-- Embeds `strings.Split(s, "-")` for the single-character separator the
handlers use: split the character list on the dash (the pure-list split
evaluates, unlike the position-based `String.splitOn`). -/
def splitSymbol (s : String) : List String :=
  (s.toList.splitOn (Char.ofNat 45)).map List.asString

/-- Embeds the funds-locking passage of `handlers.CreateOrder`: the
validation chain, the choice of lock asset and amount (quote asset and
price times quantity for a limit buy; the 501 rejection for a market buy
before anything is locked; base asset and quantity for a sell),
`GetOrCreateBalanceInTx`, `LockFunds`, and the insert of the order row
(the DB-assigned id is the `oid` argument).  All of it runs in one
transaction, so any error leaves the ledger as it was; on success the new
ledger and the created row are returned. -/
def CreateOrderHandler (l : Ledger) (userId : Nat) (oid : Nat) (req : CreateOrderRequest) :
    Except HandlerError (Ledger × Order) :=
  if req.symbol = "" ∨ req.quantity ≤ 0 then Except.error HandlerError.badRequest
  else
    match splitSymbol req.symbol with
    | [baseAsset, quoteAsset] =>
      if baseAsset = "" ∨ quoteAsset = "" then Except.error HandlerError.badRequest
      else if ¬(req.side = "buy" ∨ req.side = "sell") then Except.error HandlerError.badRequest
      else if ¬(req.otype = "limit" ∨ req.otype = "market") then Except.error HandlerError.badRequest
      else if req.otype = "limit" ∧ req.price ≤ 0 then Except.error HandlerError.badRequest
      else
        let order : Order :=
          { id := oid, userId := userId, symbol := req.symbol, otype := req.otype,
            side := req.side, price := if req.otype = "limit" then req.price else 0,
            quantity := req.quantity, status := "open" }
        let lockChoice : Except HandlerError (String × Rat) :=
          if req.side = "buy" then
            if req.otype = "limit" then Except.ok (quoteAsset, req.price * req.quantity)
            else Except.error HandlerError.marketBuyNotSupported
          else Except.ok (baseAsset, req.quantity)
        match lockChoice with
        | Except.error e => Except.error e
        | Except.ok (lockAsset, lockAmount) =>
          let l1 := getOrCreateBalance l userId lockAsset
          match LockFunds l1 userId lockAsset lockAmount with
          | Except.error e => Except.error (HandlerError.lockFailed e)
          | Except.ok l2 => Except.ok (l2, order)
    | _ => Except.error HandlerError.badRequest

/-- Embeds `database.CancelOrder`: fetch the row with the given id and
owner (an absent row and a foreign row are the same error), require status
"open", flip that row's status to "cancelled", and return the row as it
was before the update. -/
def dbCancelOrder (orders : List Order) (userId orderId : Nat) :
    Except HandlerError (Order × List Order) :=
  match orders.find? (fun o => o.id = orderId ∧ o.userId = userId) with
  | none => Except.error HandlerError.orderNotCancellable
  | some order =>
    if order.status ≠ "open" then Except.error HandlerError.orderNotCancellable
    else
      Except.ok (order,
        orders.map (fun o =>
          if o.id = orderId ∧ o.status = "open" then { o with status := "cancelled" } else o))

/-- Embeds the funds-unlocking passage of `handlers.CancelOrder`: cancel
the row through `database.CancelOrder`, split the stored symbol (Go reads
`parts[0]` and `parts[1]` without a length check, so fewer than two parts
would panic), compute the unlock asset and amount from the
pre-cancellation row (quote asset and price times quantity for a limit
buy; a 500 for a market buy; base asset and quantity for a sell), and
unlock.  One transaction: any error leaves ledger and order table as they
were. -/
def CancelOrderHandler (l : Ledger) (orders : List Order) (userId orderId : Nat) :
    Except HandlerError (Ledger × List Order) :=
  match dbCancelOrder orders userId orderId with
  | Except.error e => Except.error e
  | Except.ok (originalOrder, orders') =>
    match splitSymbol originalOrder.symbol with
    | baseAsset :: quoteAsset :: _ =>
      let unlockChoice : Except HandlerError (String × Rat) :=
        if originalOrder.side = "buy" then
          if originalOrder.otype = "limit" then
            Except.ok (quoteAsset, originalOrder.price * originalOrder.quantity)
          else Except.error HandlerError.marketBuyCancelPending
        else Except.ok (baseAsset, originalOrder.quantity)
      match unlockChoice with
      | Except.error e => Except.error e
      | Except.ok (unlockAsset, unlockAmount) =>
        match UnlockFunds l userId unlockAsset unlockAmount with
        | Except.error e => Except.error (HandlerError.unlockFailed e)
        | Except.ok l' => Except.ok (l', orders')
    | _ => Except.error HandlerError.symbolPanic

/-! ## Concrete fixtures used by counterexamples and witnesses -/

/-- A first resting bid: id 1, price 100, quantity 1. -/
def bidA : Order :=
  { id := 1, userId := 10, symbol := "BTC-USD", otype := "limit", side := "buy",
    price := 100, quantity := 1, status := "open" }

/-- A second resting bid at the same price, arriving after `bidA`. -/
def bidB : Order :=
  { id := 2, userId := 11, symbol := "BTC-USD", otype := "limit", side := "buy",
    price := 100, quantity := 1, status := "open" }

/-- An incoming sell that crosses both bids but can fill only one. -/
def sellC : Order :=
  { id := 3, userId := 12, symbol := "BTC-USD", otype := "limit", side := "sell",
    price := 100, quantity := 1, status := "open" }

/-- A resting ask: id 1, price 100, quantity 1. -/
def askD : Order :=
  { id := 1, userId := 10, symbol := "BTC-USD", otype := "limit", side := "sell",
    price := 100, quantity := 1, status := "open" }

/-- An incoming buy that fully fills against `askD`. -/
def buyE : Order :=
  { id := 2, userId := 11, symbol := "BTC-USD", otype := "limit", side := "buy",
    price := 100, quantity := 1, status := "open" }

attribute [local semireducible] Rat.sub Rat.add Rat.mul Rat.inv

/-! ## Claim theorems -/

/-- C1: the claim says that of two resting orders at equal price the one
added earlier is matched first, equivalently that `AddOrder` inserts an
unfilled remainder after all resting orders of the same price.  The code
does the opposite: `addBid` inserts at the least index whose price is at
most (not strictly below) the new order's price, so a new equal-price bid
lands in front of the earlier one; the matching loop then consumes the
front first.  Concretely: after bids `bidA` (id 1) then `bidB` (id 2) at
price 100, the book stores the later `bidB` first, and an incoming
crossing sell trades with maker id 2, the later arrival, not id 1. -/
theorem c1_time_priority_violated :
    ((AddOrder (AddOrder (NewOrderBook "BTC-USD") bidA).2 bidB).2.bids = [bidB, bidA]) ∧
    ((AddOrder (AddOrder (AddOrder (NewOrderBook "BTC-USD") bidA).2 bidB).2 sellC).1 =
      Except.ok [{ takerOrderId := 3, makerOrderId := 2, symbol := "BTC-USD",
                   price := 100, quantity := 1 }]) ∧
    bidB.id = 2 ∧ bidA.id = 1 := by
  exact ⟨rfl, rfl, rfl, rfl⟩

/-- C3: the claim says the structural invariant — in particular that every
id in the `Orders` index is present in exactly one side — is preserved by
every `AddOrder`, including a fully filled incoming order.  It is not:
`AddOrder` registers the incoming order in the index before matching and
never removes it when matching fills it completely, so the filled taker's
id stays in the index while both sides lack it.  Concretely: add ask
`askD` (id 1), then buy `buyE` (id 2) which fully fills; the final book
has empty sides but id 2 still mapped (with quantity 0). -/
theorem c3_index_invariant_violated :
    (mapLookup (AddOrder (AddOrder (NewOrderBook "BTC-USD") askD).2 buyE).2.orders 2 =
      some { id := 2, userId := 11, symbol := "BTC-USD", otype := "limit", side := "buy",
             price := 100, quantity := 0, status := "open" }) ∧
    ((AddOrder (AddOrder (NewOrderBook "BTC-USD") askD).2 buyE).2.bids = []) ∧
    ((AddOrder (AddOrder (NewOrderBook "BTC-USD") askD).2 buyE).2.asks = []) := by
  exact ⟨rfl, rfl, rfl⟩

/-! ## Ledger lemmas -/

theorem getBalance_nil (u : Nat) (a : String) : getBalance [] u a = none := rfl

theorem getBalance_cons (e : (Nat × String) × Balance) (rest : Ledger) (u : Nat) (a : String) :
    getBalance (e :: rest) u a = if e.1 = (u, a) then some e.2 else getBalance rest u a := by
  by_cases he : e.1 = (u, a) <;> simp [getBalance, List.find?, he]

theorem setBalance_cons (e : (Nat × String) × Balance) (rest : Ledger) (u : Nat) (a : String)
    (b : Balance) :
    setBalance (e :: rest) u a b =
      (if e.1 = (u, a) then ((u, a), b) else e) :: setBalance rest u a b := rfl

theorem getBalance_setBalance_self (l : Ledger) (u : Nat) (a : String) (b : Balance)
    (h : (getBalance l u a).isSome) :
    getBalance (setBalance l u a b) u a = some b := by
  induction l with
  | nil => simp [getBalance] at h
  | cons e rest ih =>
    by_cases he : e.1 = (u, a)
    · rw [setBalance_cons, if_pos he, getBalance_cons, if_pos rfl]
    · rw [getBalance_cons, if_neg he] at h
      rw [setBalance_cons, if_neg he, getBalance_cons, if_neg he]
      exact ih h

theorem getBalance_setBalance_ne (l : Ledger) (u : Nat) (a : String) (b : Balance)
    (u' : Nat) (a' : String) (h : (u', a') ≠ (u, a)) :
    getBalance (setBalance l u a b) u' a' = getBalance l u' a' := by
  induction l with
  | nil => rfl
  | cons e rest ih =>
    rw [setBalance_cons, getBalance_cons, getBalance_cons]
    by_cases he : e.1 = (u, a)
    · rw [if_pos he, if_neg (fun hx => h hx.symm), if_neg (fun hx => h (he ▸ hx).symm)]
      exact ih
    · rw [if_neg he]
      by_cases he' : e.1 = (u', a')
      · rw [if_pos he', if_pos he']
      · rw [if_neg he', if_neg he']
        exact ih

theorem getBalance_append_single (l : Ledger) (k : Nat × String) (b : Balance)
    (u : Nat) (a : String) :
    getBalance (l ++ [(k, b)]) u a =
      match getBalance l u a with
      | some x => some x
      | none => if k = (u, a) then some b else none := by
  induction l with
  | nil => rw [List.nil_append, getBalance_cons, getBalance_nil]
  | cons e rest ih =>
    rw [List.cons_append, getBalance_cons, getBalance_cons]
    by_cases he : e.1 = (u, a)
    · rw [if_pos he, if_pos he]
    · rw [if_neg he, if_neg he]
      exact ih

/-- Neither `LockFunds` nor `UnlockFunds`, succeeding or failing, changes
`available + locked` of any (user, asset) balance. -/
theorem applyOp_totalOf (l : Ledger) (op : LedgerOp) (u : Nat) (a : String) :
    totalOf (applyOp l op) u a = totalOf l u a := by
  have hset : ∀ (u₀ : Nat) (a₀ : String) (b b' : Balance),
      getBalance l u₀ a₀ = some b → b'.available + b'.locked = b.available + b.locked →
      totalOf (setBalance l u₀ a₀ b') u a = totalOf l u a := by
    intro u₀ a₀ b b' hb hsum
    by_cases hk : (u, a) = (u₀, a₀)
    · obtain ⟨hu, ha⟩ := Prod.mk.injEq .. ▸ hk
      subst hu; subst ha
      rw [totalOf, getBalance_setBalance_self _ _ _ _ (by simp [hb]), totalOf, hb]
      exact hsum
    · rw [totalOf, getBalance_setBalance_ne _ _ _ _ _ _ hk, totalOf]
  cases op with
  | lock u₀ a₀ amount =>
    by_cases hneg : amount ≤ 0
    · simp [applyOp, LockFunds, hneg]
    · cases hb : getBalance l u₀ a₀ with
      | none => simp [applyOp, LockFunds, hneg, hb]
      | some b =>
        by_cases hav : b.available ≥ amount
        · simp only [applyOp, LockFunds, if_neg hneg, hb, if_pos hav]
          exact hset u₀ a₀ b _ hb (by ring)
        · simp [applyOp, LockFunds, hneg, hb, hav]
  | unlock u₀ a₀ amount =>
    by_cases hneg : amount ≤ 0
    · simp [applyOp, UnlockFunds, hneg]
    · cases hb : getBalance l u₀ a₀ with
      | none => simp [applyOp, UnlockFunds, hneg, hb]
      | some b =>
        by_cases hlk : b.locked ≥ amount
        · simp only [applyOp, UnlockFunds, if_neg hneg, hb, if_pos hlk]
          exact hset u₀ a₀ b _ hb (by ring)
        · simp [applyOp, UnlockFunds, hneg, hb, hlk]

/-- C5: funds conservation.  For every (user, asset) balance, every single
`LockFunds` / `UnlockFunds` call — succeeding or failing — and hence every
sequence of such calls leaves `available + locked` of that balance
unchanged. -/
theorem c5_funds_conservation (l : Ledger) (u : Nat) (a : String) :
    (∀ op : LedgerOp, totalOf (applyOp l op) u a = totalOf l u a) ∧
    (∀ ops : List LedgerOp, totalOf (ops.foldl applyOp l) u a = totalOf l u a) := by
  refine ⟨fun op => applyOp_totalOf l op u a, fun ops => ?_⟩
  induction ops generalizing l with
  | nil => rfl
  | cons op rest ih => rw [List.foldl_cons, ih (applyOp l op), applyOp_totalOf]

/-- C4 counterexample: the claim lumps `amount ≤ 0` into the failures that
report insufficient funds, but at amount 0 the code fails with the
distinct "lock amount must be positive" error (which the create-order
handler's "insufficient funds" substring match does not recognise). -/
theorem c4_nonpositive_error_counterexample :
    LockFunds [((1, "USD"), { available := 100, locked := 0 })] 1 "USD" 0 =
      Except.error LockError.amountNotPositive ∧
    LockError.amountNotPositive ≠ LockError.insufficientFunds := by
  exact ⟨rfl, by decide⟩

/-- C4 (amended): `LockFunds` with `amount > 0` moves exactly `amount`
from available to locked when the row exists with `available ≥ amount`;
it fails with the insufficient-funds error when the row is absent or
`available < amount`, and with the distinct positive-amount error when
`amount ≤ 0`; every failure leaves the balance unchanged (the failed
guarded UPDATE affects no row, and the error result carries no ledger). -/
theorem c4_lockFunds_characterisation (l : Ledger) (u : Nat) (a : String) (amount : Rat) :
    (amount ≤ 0 → LockFunds l u a amount = Except.error LockError.amountNotPositive) ∧
    (0 < amount → ∀ b, getBalance l u a = some b →
      (amount ≤ b.available →
        LockFunds l u a amount = Except.ok (setBalance l u a
          { available := b.available - amount, locked := b.locked + amount }) ∧
        getBalance (setBalance l u a
          { available := b.available - amount, locked := b.locked + amount }) u a =
            some { available := b.available - amount, locked := b.locked + amount } ∧
        (∀ (u' : Nat) (a' : String), (u', a') ≠ (u, a) →
          getBalance (setBalance l u a
            { available := b.available - amount, locked := b.locked + amount }) u' a' =
          getBalance l u' a')) ∧
      (b.available < amount →
        LockFunds l u a amount = Except.error LockError.insufficientFunds)) ∧
    (0 < amount → getBalance l u a = none →
      LockFunds l u a amount = Except.error LockError.insufficientFunds) := by
  refine ⟨fun h => by simp [LockFunds, h], fun hpos b hb => ⟨fun hav => ?_, fun hlt => ?_⟩,
    fun hpos hnone => ?_⟩
  · refine ⟨by simp [LockFunds, not_le.mpr hpos, hb, hav], ?_, ?_⟩
    · exact getBalance_setBalance_self _ _ _ _ (by simp [hb])
    · exact fun u' a' h => getBalance_setBalance_ne _ _ _ _ _ _ h
  · simp [LockFunds, not_le.mpr hpos, hb, not_le.mpr hlt]
  · simp [LockFunds, not_le.mpr hpos, hnone]

/-- Witness for the amended C4 at a concrete balance: locking 30 out of
100 available moves exactly 30 into locked. -/
theorem c4_lockFunds_characterisation_witness :
    LockFunds [((1, "USD"), { available := 100, locked := 5 })] 1 "USD" 30 =
      Except.ok [((1, "USD"), { available := 70, locked := 35 })] := by
  have h := ((c4_lockFunds_characterisation
      [((1, "USD"), { available := 100, locked := 5 })] 1 "USD" 30).2.1
      (by norm_num) { available := 100, locked := 5 } rfl).1 (by norm_num)
  exact h.1.trans (by norm_num [setBalance])

/-! ## Order-book cancellation and rejection -/

/-- Number of occurrences of an id in a side's slice. -/
def countById (l : List Order) (i : Nat) : Nat :=
  (l.filter (fun o => o.id = i)).length

theorem countById_removeFirstById (l : List Order) (i : Nat) :
    countById (removeFirstById l i) i = countById l i - 1 := by
  induction l with
  | nil => rfl
  | cons o rest ih =>
    by_cases ho : o.id = i
    · simp [removeFirstById, countById, ho]
    · simp only [removeFirstById, if_neg ho, countById, List.filter, decide_eq_true_eq]
      simp only [ho, if_false, decide_eq_false ho]
      exact ih

/-- C6: `CancelOrder` of an id absent from the index is the not-found
error with book state — hence the depth snapshot — unchanged; of a present
id it returns the indexed order as stored, deletes the id from the index,
removes the first occurrence of the id from the slice of that order's side
(one occurrence fewer; the book keeps sides free of duplicate ids) and
leaves the opposite side alone. -/
theorem c6_cancelOrder_spec (ob : OrderBook) (oid : Nat) :
    (mapLookup ob.orders oid = none →
      CancelOrder ob oid = (Except.error BookError.notFound, ob) ∧
      GetDepth (CancelOrder ob oid).2 = GetDepth ob) ∧
    (∀ o, mapLookup ob.orders oid = some o →
      (CancelOrder ob oid).1 = Except.ok o ∧
      mapLookup (CancelOrder ob oid).2.orders oid = none ∧
      (o.side = "buy" →
        (CancelOrder ob oid).2.bids = removeFirstById ob.bids oid ∧
        countById (CancelOrder ob oid).2.bids oid = countById ob.bids oid - 1 ∧
        (CancelOrder ob oid).2.asks = ob.asks) ∧
      (o.side ≠ "buy" →
        (CancelOrder ob oid).2.asks = removeFirstById ob.asks oid ∧
        countById (CancelOrder ob oid).2.asks oid = countById ob.asks oid - 1 ∧
        (CancelOrder ob oid).2.bids = ob.bids)) := by
  have herase : mapLookup (mapErase ob.orders oid) oid = none := by
    have : ∀ m : List (Nat × Order), mapLookup (mapErase m oid) oid = none := by
      intro m
      induction m with
      | nil => rfl
      | cons e rest ih =>
        by_cases he : e.1 = oid
        · simpa [mapErase, List.filter, he] using ih
        · simpa [mapLookup, mapErase, List.filter, List.find?, he] using ih
    exact this ob.orders
  constructor
  · intro hnone
    refine ⟨?_, ?_⟩ <;> simp [CancelOrder, hnone]
  · intro o hsome
    simp only [CancelOrder, hsome]
    by_cases hside : o.side = "buy"
    · rw [if_pos hside]
      exact ⟨rfl, herase, fun _ => ⟨rfl, countById_removeFirstById _ _, rfl⟩,
        fun hns => absurd hside hns⟩
    · rw [if_neg hside]
      exact ⟨rfl, herase, fun hs => absurd hs hside,
        fun _ => ⟨rfl, countById_removeFirstById _ _, rfl⟩⟩

/-- Witness for C6 at a concrete book: cancelling the only resting bid
returns it. -/
theorem c6_cancelOrder_spec_witness :
    (CancelOrder (AddOrder (NewOrderBook "BTC-USD") bidA).2 1).1 = Except.ok bidA :=
  ((c6_cancelOrder_spec (AddOrder (NewOrderBook "BTC-USD") bidA).2 1).2 bidA rfl).1

/-- C7: `AddOrder` returns an error exactly when the order's symbol is not
the book's, or its type is not "limit", or its id is already indexed; and
every error return leaves the book exactly as it was (all three checks
precede any mutation). -/
theorem c7_addOrder_errors (ob : OrderBook) (o : Order) :
    ((∃ e, (AddOrder ob o).1 = Except.error e) ↔
      (o.symbol ≠ ob.symbol ∨ o.otype ≠ "limit" ∨ (mapLookup ob.orders o.id).isSome)) ∧
    ((∃ e, (AddOrder ob o).1 = Except.error e) → (AddOrder ob o).2 = ob) := by
  by_cases h1 : o.symbol ≠ ob.symbol
  · rw [AddOrder, if_pos h1]
    exact ⟨⟨fun _ => Or.inl h1, fun _ => ⟨BookError.symbolMismatch, rfl⟩⟩, fun _ => rfl⟩
  · by_cases h2 : o.otype ≠ "limit"
    · rw [AddOrder, if_neg h1, if_pos h2]
      exact ⟨⟨fun _ => Or.inr (Or.inl h2), fun _ => ⟨BookError.notLimit, rfl⟩⟩, fun _ => rfl⟩
    · by_cases h3 : (mapLookup ob.orders o.id).isSome
      · rw [AddOrder, if_neg h1, if_neg h2, if_pos h3]
        exact ⟨⟨fun _ => Or.inr (Or.inr h3), fun _ => ⟨BookError.duplicateId, rfl⟩⟩, fun _ => rfl⟩
      · rw [AddOrder, if_neg h1, if_neg h2, if_neg h3]
        constructor
        · constructor
          · rintro ⟨e, he⟩
            exact absurd he (by simp)
          · intro h
            rcases h with h | h | h
            · exact absurd h h1
            · exact absurd h h2
            · exact absurd h h3
        · rintro ⟨e, he⟩
          exact absurd he (by simp)

/-- Witness for C7: adding an order whose symbol differs from the book's
is rejected and the book is untouched. -/
theorem c7_addOrder_errors_witness :
    (AddOrder (NewOrderBook "ETH-USD") bidA).2 = NewOrderBook "ETH-USD" :=
  (c7_addOrder_errors (NewOrderBook "ETH-USD") bidA).2 ⟨BookError.symbolMismatch, rfl⟩

/-! ## Trade price and quantity (C2) -/

/-- Total quantity of a list of trades. -/
def sumQ (ts : List Trade) : Rat :=
  (ts.map (fun t => t.quantity)).sum

/-- Every trade produced by the buy-side matching loop trades with a
resting ask of the pre-call slice, at that ask's price and its pre-call
quantity, for the minimum of that quantity and what remains of the
incoming order after the earlier trades of the same call. -/
theorem matchBuy_trades (sym : String) (asks : List Order) :
    ∀ (incoming : Order) (idx : List (Nat × Order)) (k : Nat) (t : Trade),
      (matchBuy sym incoming asks idx).1[k]? = some t →
      ∃ r ∈ asks,
        t.makerOrderId = r.id ∧ t.price = r.price ∧
        t.quantity =
          min (incoming.quantity - sumQ ((matchBuy sym incoming asks idx).1.take k))
            r.quantity := by
  induction asks with
  | nil =>
    intro incoming idx k t ht
    simp [matchBuy] at ht
  | cons ask rest ih =>
    intro incoming idx k t ht
    by_cases hq : incoming.quantity > 0
    · by_cases hp : incoming.price ≥ ask.price
      · simp only [matchBuy, if_pos hq, if_pos hp] at ht ⊢
        by_cases hz : ask.quantity - min incoming.quantity ask.quantity = 0
        · simp only [if_pos hz] at ht ⊢
          cases k with
          | zero =>
            simp only [List.getElem?_cons_zero, Option.some.injEq] at ht
            refine ⟨ask, List.mem_cons_self _ _, ?_, ?_, ?_⟩ <;> rw [← ht]
            simp [sumQ]
          | succ k =>
            simp only [List.getElem?_cons_succ] at ht
            obtain ⟨r, hr, h1, h2, h3⟩ := ih _ _ k t ht
            refine ⟨r, List.mem_cons_of_mem _ hr, h1, h2, ?_⟩
            rw [h3]
            congr 1
            simp [sumQ, sub_sub]
        · simp only [if_neg hz] at ht ⊢
          cases k with
          | zero =>
            simp only [List.getElem?_cons_zero, Option.some.injEq] at ht
            refine ⟨ask, List.mem_cons_self _ _, ?_, ?_, ?_⟩ <;> rw [← ht]
            simp [sumQ]
          | succ k =>
            simp only [List.getElem?_cons_succ] at ht
            obtain ⟨r, hr, h1, h2, h3⟩ := ih _ _ k t ht
            refine ⟨r, List.mem_cons_of_mem _ hr, h1, h2, ?_⟩
            rw [h3]
            congr 1
            simp [sumQ, sub_sub]
      · simp [matchBuy, if_pos hq, if_neg hp] at ht
    · simp [matchBuy, if_neg hq] at ht

/-- Sell-side analogue of `matchBuy_trades`. -/
theorem matchSell_trades (sym : String) (bids : List Order) :
    ∀ (incoming : Order) (idx : List (Nat × Order)) (k : Nat) (t : Trade),
      (matchSell sym incoming bids idx).1[k]? = some t →
      ∃ r ∈ bids,
        t.makerOrderId = r.id ∧ t.price = r.price ∧
        t.quantity =
          min (incoming.quantity - sumQ ((matchSell sym incoming bids idx).1.take k))
            r.quantity := by
  induction bids with
  | nil =>
    intro incoming idx k t ht
    simp [matchSell] at ht
  | cons bid rest ih =>
    intro incoming idx k t ht
    by_cases hq : incoming.quantity > 0
    · by_cases hp : incoming.price ≤ bid.price
      · simp only [matchSell, if_pos hq, if_pos hp] at ht ⊢
        by_cases hz : bid.quantity - min incoming.quantity bid.quantity = 0
        · simp only [if_pos hz] at ht ⊢
          cases k with
          | zero =>
            simp only [List.getElem?_cons_zero, Option.some.injEq] at ht
            refine ⟨bid, List.mem_cons_self _ _, ?_, ?_, ?_⟩ <;> rw [← ht]
            simp [sumQ]
          | succ k =>
            simp only [List.getElem?_cons_succ] at ht
            obtain ⟨r, hr, h1, h2, h3⟩ := ih _ _ k t ht
            refine ⟨r, List.mem_cons_of_mem _ hr, h1, h2, ?_⟩
            rw [h3]
            congr 1
            simp [sumQ, sub_sub]
        · simp only [if_neg hz] at ht ⊢
          cases k with
          | zero =>
            simp only [List.getElem?_cons_zero, Option.some.injEq] at ht
            refine ⟨bid, List.mem_cons_self _ _, ?_, ?_, ?_⟩ <;> rw [← ht]
            simp [sumQ]
          | succ k =>
            simp only [List.getElem?_cons_succ] at ht
            obtain ⟨r, hr, h1, h2, h3⟩ := ih _ _ k t ht
            refine ⟨r, List.mem_cons_of_mem _ hr, h1, h2, ?_⟩
            rw [h3]
            congr 1
            simp [sumQ, sub_sub]
      · simp [matchSell, if_pos hq, if_neg hp] at ht
    · simp [matchSell, if_neg hq] at ht

/-- C2: every trade returned by a successful `AddOrder` is priced at the
price of a resting (maker) order of the opposite side as it stood before
the call — never at the incoming order's price — and its quantity is the
minimum of the maker's remaining quantity and the incoming order's
remaining quantity at the moment of the match (the original quantity less
the quantities of the earlier trades of the same call; a maker trades at
most once per call, so its remaining quantity is its pre-call one).  This
holds for every book state, in particular along every sequence of
`AddOrder` calls from an empty book. -/
theorem c2_trade_price_quantity (ob : OrderBook) (order : Order) (trades : List Trade)
    (ob' : OrderBook) (h : AddOrder ob order = (Except.ok trades, ob'))
    (k : Nat) (t : Trade) (hk : trades[k]? = some t) :
    ∃ r ∈ (if order.side = "buy" then ob.asks else ob.bids),
      t.makerOrderId = r.id ∧ t.price = r.price ∧
      t.quantity = min (order.quantity - sumQ (trades.take k)) r.quantity := by
  by_cases h1 : order.symbol ≠ ob.symbol
  · rw [AddOrder, if_pos h1] at h
    exact absurd h (by simp)
  · by_cases h2 : order.otype ≠ "limit"
    · rw [AddOrder, if_neg h1, if_pos h2] at h
      exact absurd h (by simp)
    · by_cases h3 : (mapLookup ob.orders order.id).isSome
      · rw [AddOrder, if_neg h1, if_neg h2, if_pos h3] at h
        exact absurd h (by simp)
      · rw [AddOrder, if_neg h1, if_neg h2, if_neg h3] at h
        have ht : trades =
            (matchOrder { ob with orders := mapInsert ob.orders order.id order } order).1 := by
          have := congrArg Prod.fst h
          simpa using this.symm
        subst ht
        by_cases hside : order.side = "buy"
        · rw [if_pos hside]
          simp only [matchOrder, if_pos hside] at hk ⊢
          exact matchBuy_trades _ _ order _ k t hk
        · rw [if_neg hside]
          simp only [matchOrder, if_neg hside] at hk ⊢
          exact matchSell_trades _ _ order _ k t hk

/-- Witness for C2 at a concrete input: a buy that fully fills against a
resting ask yields one trade at the ask's price for the full quantity. -/
theorem c2_trade_price_quantity_witness :
    ∃ r ∈ (if buyE.side = "buy"
            then (AddOrder (NewOrderBook "BTC-USD") askD).2.asks
            else (AddOrder (NewOrderBook "BTC-USD") askD).2.bids),
      Trade.makerOrderId { takerOrderId := 2, makerOrderId := 1, symbol := "BTC-USD",
                           price := 100, quantity := 1 } = r.id ∧
      Trade.price { takerOrderId := 2, makerOrderId := 1, symbol := "BTC-USD",
                    price := 100, quantity := 1 } = r.price ∧
      Trade.quantity { takerOrderId := 2, makerOrderId := 1, symbol := "BTC-USD",
                       price := 100, quantity := 1 } =
        min (buyE.quantity -
          sumQ (List.take 0 [{ takerOrderId := 2, makerOrderId := 1, symbol := "BTC-USD",
                               price := 100, quantity := 1 }])) r.quantity :=
  c2_trade_price_quantity (AddOrder (NewOrderBook "BTC-USD") askD).2 buyE
    [{ takerOrderId := 2, makerOrderId := 1, symbol := "BTC-USD", price := 100, quantity := 1 }]
    (AddOrder (AddOrder (NewOrderBook "BTC-USD") askD).2 buyE).2 rfl 0 _ rfl

/-! ## Depth aggregation (C8) -/

/-- Sum of the remaining quantities of the orders at one price. -/
def sumAt (x : Rat) (orders : List Order) : Rat :=
  ((orders.filter (fun o => o.price = x)).map (fun o => o.quantity)).sum

theorem levelGet_nil (x : Rat) : levelGet [] x = 0 := rfl

theorem levelGet_cons (e : Rat × Rat) (rest : List (Rat × Rat)) (x : Rat) :
    levelGet (e :: rest) x = if e.1 = x then e.2 else levelGet rest x := by
  by_cases he : e.1 = x <;> simp [levelGet, List.find?, he]

theorem levelGet_bump_other (m : List (Rat × Rat)) (p q x : Rat) (hx : x ≠ p) :
    levelGet (m.map (fun e => if e.1 = p then (p, e.2 + q) else e)) x = levelGet m x := by
  induction m with
  | nil => rfl
  | cons e rest ih =>
    rw [List.map_cons, levelGet_cons, levelGet_cons]
    by_cases he : e.1 = p
    · rw [if_pos he, if_neg (fun hp => hx hp.symm), if_neg (he ▸ fun hp => hx hp.symm)]
      exact ih
    · rw [if_neg he]
      by_cases hex : e.1 = x
      · rw [if_pos hex, if_pos hex]
      · rw [if_neg hex, if_neg hex]
        exact ih

theorem levelGet_bump_present (m : List (Rat × Rat)) (p q : Rat)
    (h : (m.find? (fun e => e.1 = p)).isSome) :
    levelGet (m.map (fun e => if e.1 = p then (p, e.2 + q) else e)) p = levelGet m p + q := by
  induction m with
  | nil => simp [List.find?] at h
  | cons e rest ih =>
    rw [List.map_cons, levelGet_cons, levelGet_cons]
    by_cases he : e.1 = p
    · rw [if_pos he, if_pos rfl, if_pos he]
    · rw [if_neg he, if_neg he, if_neg he]
      rw [List.find?_cons_of_neg _ (by simpa using he)] at h
      exact ih h

theorem levelGet_append_single (m : List (Rat × Rat)) (p q x : Rat) :
    levelGet (m ++ [(p, q)]) x =
      match m.find? (fun e => e.1 = x) with
      | some e => e.2
      | none => if p = x then q else 0 := by
  induction m with
  | nil =>
    rw [List.nil_append, levelGet_cons, levelGet_nil]
    rfl
  | cons e rest ih =>
    rw [List.cons_append, levelGet_cons]
    by_cases he : e.1 = x
    · rw [if_pos he, List.find?_cons_of_pos _ (by simpa using he)]
    · rw [if_neg he, List.find?_cons_of_neg _ (by simpa using he)]
      exact ih

theorem find?_isSome_of_none_false (m : List (Rat × Rat)) (p : Rat)
    (h : ¬(m.find? (fun e => e.1 = p)).isSome) :
    m.find? (fun e => e.1 = p) = none := by
  cases hf : m.find? (fun e => e.1 = p) with
  | none => rfl
  | some e => rw [hf] at h; simp at h

theorem levelGet_levelAdd (m : List (Rat × Rat)) (p q x : Rat) :
    levelGet (levelAdd m p q) x = levelGet m x + (if x = p then q else 0) := by
  by_cases hpres : (m.find? (fun e => e.1 = p)).isSome
  · rw [levelAdd, if_pos hpres]
    by_cases hx : x = p
    · subst hx
      rw [if_pos rfl]
      exact levelGet_bump_present m x q hpres
    · rw [if_neg hx, add_zero]
      exact levelGet_bump_other m p q x hx
  · rw [levelAdd, if_neg hpres, levelGet_append_single]
    have hnone := find?_isSome_of_none_false m p hpres
    by_cases hx : x = p
    · subst hx
      simp only [hnone]
      have hz : levelGet m x = 0 := by
        rw [levelGet, hnone]
      rw [hz, zero_add]
    · rw [if_neg hx]
      cases hf : m.find? (fun e => e.1 = x) with
      | none =>
        simp only [hf]
        rw [if_neg (fun hp => hx hp.symm), add_zero, levelGet, hf]
      | some e =>
        simp only [hf]
        rw [add_zero, levelGet, hf]

theorem keys_levelAdd_mem (m : List (Rat × Rat)) (p q x : Rat) :
    x ∈ (levelAdd m p q).map (fun e => e.1) ↔
      x ∈ m.map (fun e => e.1) ∨ x = p := by
  by_cases hpres : (m.find? (fun e => e.1 = p)).isSome
  · rw [levelAdd, if_pos hpres, List.map_map]
    have hkeys : ((fun e : Rat × Rat => e.1) ∘ fun e => if e.1 = p then (p, e.2 + q) else e) =
        fun e : Rat × Rat => e.1 := by
      funext e
      by_cases he : e.1 = p <;> simp [he]
    rw [hkeys]
    constructor
    · exact Or.inl
    · rintro (hx | hx)
      · exact hx
      · subst hx
        obtain ⟨e, he, hp⟩ := List.find?_isSome.mp hpres
        have hex : e.1 = x := by simpa using hp
        exact List.mem_map.mpr ⟨e, he, hex⟩
  · rw [levelAdd, if_neg hpres]
    simp

theorem keys_levelAdd_nodup (m : List (Rat × Rat)) (p q : Rat)
    (h : (m.map (fun e => e.1)).Nodup) :
    ((levelAdd m p q).map (fun e => e.1)).Nodup := by
  by_cases hpres : (m.find? (fun e => e.1 = p)).isSome
  · rw [levelAdd, if_pos hpres, List.map_map]
    have hkeys : ((fun e : Rat × Rat => e.1) ∘ fun e => if e.1 = p then (p, e.2 + q) else e) =
        fun e : Rat × Rat => e.1 := by
      funext e
      by_cases he : e.1 = p <;> simp [he]
    rw [hkeys]
    exact h
  · rw [levelAdd, if_neg hpres]
    have hnp : p ∉ m.map (fun e => e.1) := by
      intro hmem
      obtain ⟨e, he, hp⟩ := List.mem_map.mp hmem
      have hdec : (fun e : Rat × Rat => decide (e.1 = p)) e = true := by
        simp [hp]
      exact hpres (List.find?_isSome.mpr ⟨e, he, hdec⟩)
    simp only [List.map_append, List.map_cons, List.map_nil]
    exact List.Nodup.append h (List.nodup_singleton p)
      (fun a ha hpa => hnp ((List.mem_singleton.mp hpa) ▸ ha))

theorem levelGet_levelMapOf_aux :
    ∀ (orders : List Order) (m : List (Rat × Rat)) (x : Rat),
      levelGet (orders.foldl (fun m o => levelAdd m o.price o.quantity) m) x =
        levelGet m x + sumAt x orders := by
  intro orders
  induction orders with
  | nil =>
    intro m x
    simp [sumAt]
  | cons o rest ih =>
    intro m x
    rw [List.foldl_cons, ih, levelGet_levelAdd]
    by_cases hx : x = o.price
    · have hf : sumAt x (o :: rest) = o.quantity + sumAt x rest := by
        simp [sumAt, List.filter_cons, hx.symm]
      rw [if_pos hx, hf]
      ring
    · have hf : sumAt x (o :: rest) = sumAt x rest := by
        have hne : ¬(o.price = x) := fun hp => hx hp.symm
        simp [sumAt, List.filter_cons, hne]
      rw [if_neg hx, add_zero, hf]

theorem keys_levelMapOf_mem :
    ∀ (orders : List Order) (m : List (Rat × Rat)) (x : Rat),
      (x ∈ (orders.foldl (fun m o => levelAdd m o.price o.quantity) m).map (fun e => e.1) ↔
        x ∈ m.map (fun e => e.1) ∨ x ∈ orders.map (fun o => o.price)) := by
  intro orders
  induction orders with
  | nil =>
    intro m x
    simp
  | cons o rest ih =>
    intro m x
    rw [List.foldl_cons, ih, keys_levelAdd_mem]
    simp [or_assoc]

theorem keys_levelMapOf_nodup :
    ∀ (orders : List Order) (m : List (Rat × Rat)),
      (m.map (fun e => e.1)).Nodup →
      ((orders.foldl (fun m o => levelAdd m o.price o.quantity) m).map (fun e => e.1)).Nodup := by
  intro orders
  induction orders with
  | nil => exact fun m h => h
  | cons o rest ih =>
    intro m h
    rw [List.foldl_cons]
    exact ih _ (keys_levelAdd_nodup _ _ _ h)

/-- One side of the depth snapshot: the side's distinct prices, sorted by
the given relation, each with its aggregated quantity.  Both sides of
`GetDepth` are definitionally of this shape. -/
def depthLevels (os : List Order) (r : Rat → Rat → Prop) [DecidableRel r] : List BookLevel :=
  (((levelMapOf os).map (fun e => e.1)).insertionSort r).map
    (fun p => { price := p, quantity := levelGet (levelMapOf os) p })

theorem depthLevels_spec (os : List Order) (r : Rat → Rat → Prop) [DecidableRel r]
    [IsTotal Rat r] [IsTrans Rat r] :
    (∀ p, (∃ lv ∈ depthLevels os r, lv.price = p) ↔ p ∈ os.map (fun o => o.price)) ∧
    ((depthLevels os r).map (fun lv => lv.price)).Nodup ∧
    (∀ lv ∈ depthLevels os r, lv.quantity = sumAt lv.price os) ∧
    ((depthLevels os r).map (fun lv => lv.price)).Pairwise (fun a b => r a b ∧ a ≠ b) := by
  have hmap : (depthLevels os r).map (fun lv => lv.price) =
      ((levelMapOf os).map (fun e => e.1)).insertionSort r := by
    rw [depthLevels, List.map_map]
    exact List.map_id _
  have hnodupkeys : ((levelMapOf os).map (fun e => e.1)).Nodup :=
    keys_levelMapOf_nodup os [] (by simp)
  have hperm := List.perm_insertionSort r ((levelMapOf os).map (fun e => e.1))
  have hnodups : (((levelMapOf os).map (fun e => e.1)).insertionSort r).Nodup :=
    hperm.nodup_iff.mpr hnodupkeys
  refine ⟨?_, ?_, ?_, ?_⟩
  · intro p
    constructor
    · rintro ⟨lv, hlv, hp⟩
      obtain ⟨p', hp', hmk⟩ := List.mem_map.mp hlv
      have hpp : p' = p := by rw [← hp, ← hmk]
      subst hpp
      have hkeys : p' ∈ (levelMapOf os).map (fun e => e.1) :=
        (List.mem_insertionSort r).mp hp'
      have := (keys_levelMapOf_mem os [] p').mp hkeys
      simpa using this
    · intro hp
      have hkeys : p ∈ (levelMapOf os).map (fun e => e.1) :=
        (keys_levelMapOf_mem os [] p).mpr (Or.inr hp)
      have hsortmem : p ∈ ((levelMapOf os).map (fun e => e.1)).insertionSort r :=
        (List.mem_insertionSort r).mpr hkeys
      exact ⟨{ price := p, quantity := levelGet (levelMapOf os) p },
        List.mem_map.mpr ⟨p, hsortmem, rfl⟩, rfl⟩
  · rw [hmap]
    exact hnodups
  · intro lv hlv
    obtain ⟨p, hp, hmk⟩ := List.mem_map.mp hlv
    rw [← hmk]
    have h0 := levelGet_levelMapOf_aux os [] p
    rw [levelGet_nil, zero_add] at h0
    simpa [levelMapOf] using h0
  · rw [hmap]
    have hsorted := List.sorted_insertionSort r ((levelMapOf os).map (fun e => e.1))
    exact List.Pairwise.and hsorted hnodups

/-- The concrete book of the claim: three resting bids at price 100 with
quantities 1, 2 and 3, nothing else. -/
def bookC8 : OrderBook :=
  { symbol := "BTC-USD",
    bids := [{ id := 1, userId := 10, symbol := "BTC-USD", otype := "limit", side := "buy",
               price := 100, quantity := 1, status := "open" },
             { id := 2, userId := 10, symbol := "BTC-USD", otype := "limit", side := "buy",
               price := 100, quantity := 2, status := "open" },
             { id := 3, userId := 10, symbol := "BTC-USD", otype := "limit", side := "buy",
               price := 100, quantity := 3, status := "open" }],
    asks := [],
    orders := [(1, { id := 1, userId := 10, symbol := "BTC-USD", otype := "limit", side := "buy",
                     price := 100, quantity := 1, status := "open" }),
               (2, { id := 2, userId := 10, symbol := "BTC-USD", otype := "limit", side := "buy",
                     price := 100, quantity := 2, status := "open" }),
               (3, { id := 3, userId := 10, symbol := "BTC-USD", otype := "limit", side := "buy",
                     price := 100, quantity := 3, status := "open" })] }

/-- C8: `GetDepth` emits, per side, exactly one level per distinct resting
price (no duplicates, and a price appears among the levels exactly when
some resting order of that side has it), each level carrying the sum of
the remaining quantities at its price; bid levels are strictly descending
and ask levels strictly ascending in price.  In particular the book with
three resting bids at price 100 of quantities 1, 2 and 3 has the single
bid level (100, 6) and no ask levels. -/
theorem c8_getDepth_aggregation :
    (∀ ob : OrderBook,
      (∀ p, (∃ lv ∈ (GetDepth ob).bids, lv.price = p) ↔ p ∈ ob.bids.map (fun o => o.price)) ∧
      ((GetDepth ob).bids.map (fun lv => lv.price)).Nodup ∧
      (∀ lv ∈ (GetDepth ob).bids, lv.quantity = sumAt lv.price ob.bids) ∧
      ((GetDepth ob).bids.map (fun lv => lv.price)).Pairwise (fun a b => a > b) ∧
      (∀ p, (∃ lv ∈ (GetDepth ob).asks, lv.price = p) ↔ p ∈ ob.asks.map (fun o => o.price)) ∧
      ((GetDepth ob).asks.map (fun lv => lv.price)).Nodup ∧
      (∀ lv ∈ (GetDepth ob).asks, lv.quantity = sumAt lv.price ob.asks) ∧
      ((GetDepth ob).asks.map (fun lv => lv.price)).Pairwise (fun a b => a < b)) ∧
    GetDepth bookC8 =
      { symbol := "BTC-USD", bids := [{ price := 100, quantity := 6 }], asks := [] } := by
  constructor
  · intro ob
    have hb : (GetDepth ob).bids = depthLevels ob.bids (fun a b => a ≥ b) := rfl
    have ha : (GetDepth ob).asks = depthLevels ob.asks (fun a b => a ≤ b) := rfl
    obtain ⟨b1, b2, b3, b4⟩ := depthLevels_spec ob.bids (fun a b => a ≥ b)
    obtain ⟨a1, a2, a3, a4⟩ := depthLevels_spec ob.asks (fun a b => a ≤ b)
    rw [hb, ha]
    refine ⟨b1, b2, b3, ?_, a1, a2, a3, ?_⟩
    · exact b4.imp (fun hab => lt_of_le_of_ne hab.1 (fun h => hab.2 h.symm))
    · exact a4.imp (fun hab => lt_of_le_of_ne hab.1 hab.2)
  · rfl

/-- Witness for C8 at the concrete book: the single level (100, 6) indeed
carries the summed quantity of the three resting bids at 100. -/
theorem c8_getDepth_aggregation_witness :
    BookLevel.quantity { price := 100, quantity := 6 } =
      sumAt (BookLevel.price { price := 100, quantity := 6 }) bookC8.bids :=
  (c8_getDepth_aggregation.1 bookC8).2.2.1 { price := 100, quantity := 6 } (by decide)

/-! ## Fill settlement (C9) -/

/-- Value of a balance row after the upsert credit (a fresh row starts at
the credited amount with zero locked). -/
def creditAvailable : Option Balance → Rat → Balance
  | some b, amt => { available := b.available + amt, locked := b.locked }
  | none, amt => { available := amt, locked := 0 }

theorem getBalance_upsertAvailable_self (l : Ledger) (u : Nat) (a : String) (amt : Rat) :
    getBalance (upsertAvailable l u a amt) u a =
      some (creditAvailable (getBalance l u a) amt) := by
  rw [upsertAvailable]
  cases hb : getBalance l u a with
  | some b =>
    simp only [creditAvailable]
    exact getBalance_setBalance_self _ _ _ _ (by simp [hb])
  | none =>
    simp only [creditAvailable]
    rw [getBalance_append_single]
    simp [hb]

theorem getBalance_upsertAvailable_ne (l : Ledger) (u : Nat) (a : String) (amt : Rat)
    (u' : Nat) (a' : String) (h : (u', a') ≠ (u, a)) :
    getBalance (upsertAvailable l u a amt) u' a' = getBalance l u' a' := by
  rw [upsertAvailable]
  cases hb : getBalance l u a with
  | some b => exact getBalance_setBalance_ne _ _ _ _ _ _ h
  | none =>
    rw [getBalance_append_single]
    cases hx : getBalance l u' a' with
    | some x => rfl
    | none =>
      simp only
      rw [if_neg (fun hk => h hk.symm)]

theorem updateFill_buy (l : Ledger) (u : Nat) (ba qa : String) (bam qam : Rat) :
    UpdateBalancesForFill l u ba qa bam qam "buy" =
      match getBalance l u qa with
      | some b =>
        if b.locked ≥ qam then
          Except.ok (upsertAvailable
            (setBalance l u qa { available := b.available, locked := b.locked - qam }) u ba bam)
        else Except.error FillError.decreaseLockedFailed
      | none => Except.error FillError.decreaseLockedFailed := rfl

theorem updateFill_sell (l : Ledger) (u : Nat) (ba qa : String) (bam qam : Rat) :
    UpdateBalancesForFill l u ba qa bam qam "sell" =
      match getBalance l u ba with
      | some b =>
        if b.locked ≥ bam then
          Except.ok (upsertAvailable
            (setBalance l u ba { available := b.available, locked := b.locked - bam }) u qa qam)
        else Except.error FillError.decreaseLockedFailed
      | none => Except.error FillError.decreaseLockedFailed := rfl

/-- C9: the two-user fill.  Every successful outcome carries all four
balance changes — `quoteAmount` off the buyer's locked quote and onto the
seller's available quote, `baseAmount` off the seller's locked base and
onto the buyer's available base — with every other (user, asset) row
untouched; and the call fails exactly when the buyer's locked quote or
the seller's locked base cannot cover the trade, in which case the error
carries no ledger, so no outcome with one leg and not the other is
reachable. -/
theorem c9_applyFill_atomic (l : Ledger) (buyer seller : Nat) (baseAsset quoteAsset : String)
    (baseAmount quoteAmount : Rat)
    (hu : buyer ≠ seller) (ha : baseAsset ≠ quoteAsset) :
    (∀ l', ApplyFill l buyer seller baseAsset quoteAsset baseAmount quoteAmount = Except.ok l' →
      ∃ bq sb, getBalance l buyer quoteAsset = some bq ∧ quoteAmount ≤ bq.locked ∧
        getBalance l seller baseAsset = some sb ∧ baseAmount ≤ sb.locked ∧
        getBalance l' buyer quoteAsset =
          some { available := bq.available, locked := bq.locked - quoteAmount } ∧
        getBalance l' buyer baseAsset =
          some (creditAvailable (getBalance l buyer baseAsset) baseAmount) ∧
        getBalance l' seller baseAsset =
          some { available := sb.available, locked := sb.locked - baseAmount } ∧
        getBalance l' seller quoteAsset =
          some (creditAvailable (getBalance l seller quoteAsset) quoteAmount) ∧
        (∀ (u : Nat) (b : String), (u, b) ≠ (buyer, quoteAsset) → (u, b) ≠ (buyer, baseAsset) →
          (u, b) ≠ (seller, baseAsset) → (u, b) ≠ (seller, quoteAsset) →
          getBalance l' u b = getBalance l u b)) ∧
    ((∃ e, ApplyFill l buyer seller baseAsset quoteAsset baseAmount quoteAmount =
        Except.error e) ↔
      ¬((∃ bq, getBalance l buyer quoteAsset = some bq ∧ quoteAmount ≤ bq.locked) ∧
        (∃ sb, getBalance l seller baseAsset = some sb ∧ baseAmount ≤ sb.locked))) := by
  have hbq' : ((buyer, quoteAsset) : Nat × String) ≠ (seller, baseAsset) :=
    fun h => hu (congrArg Prod.fst h)
  have hbq'' : ((buyer, quoteAsset) : Nat × String) ≠ (seller, quoteAsset) :=
    fun h => hu (congrArg Prod.fst h)
  have hbb' : ((buyer, baseAsset) : Nat × String) ≠ (seller, baseAsset) :=
    fun h => hu (congrArg Prod.fst h)
  have hbb'' : ((buyer, baseAsset) : Nat × String) ≠ (seller, quoteAsset) :=
    fun h => hu (congrArg Prod.fst h)
  have hqb : ((buyer, quoteAsset) : Nat × String) ≠ (buyer, baseAsset) :=
    fun h => ha (congrArg Prod.snd h).symm
  have hsq : ((seller, quoteAsset) : Nat × String) ≠ (seller, baseAsset) :=
    fun h => ha (congrArg Prod.snd h).symm
  rw [ApplyFill, updateFill_buy]
  cases hbq : getBalance l buyer quoteAsset with
  | none =>
    refine ⟨fun l' h => absurd h (by simp), ?_⟩
    simp only
    constructor
    · rintro - ⟨⟨bq, hbq2, -⟩, -⟩
      exact absurd hbq2 (by simp)
    · exact fun _ => ⟨FillError.decreaseLockedFailed, rfl⟩
  | some bq =>
    by_cases hlq : bq.locked ≥ quoteAmount
    · simp only [if_pos hlq]
      rw [updateFill_sell]
      have hsb1 : getBalance (upsertAvailable
          (setBalance l buyer quoteAsset
            { available := bq.available, locked := bq.locked - quoteAmount })
          buyer baseAsset baseAmount) seller baseAsset = getBalance l seller baseAsset := by
        rw [getBalance_upsertAvailable_ne _ _ _ _ _ _ (fun h => hbb' h.symm),
          getBalance_setBalance_ne _ _ _ _ _ _ (fun h => hbq' h.symm)]
      rw [hsb1]
      cases hsb : getBalance l seller baseAsset with
      | none =>
        refine ⟨fun l' h => absurd h (by simp), ?_⟩
        constructor
        · rintro - ⟨-, ⟨sb, hsb2, -⟩⟩
          exact absurd hsb2 (by simp)
        · exact fun _ => ⟨FillError.decreaseLockedFailed, rfl⟩
      | some sb =>
        by_cases hlb : sb.locked ≥ baseAmount
        · simp only [if_pos hlb]
          constructor
          · intro l' h
            have hl' : upsertAvailable
                (setBalance (upsertAvailable
                  (setBalance l buyer quoteAsset
                    { available := bq.available, locked := bq.locked - quoteAmount })
                  buyer baseAsset baseAmount) seller baseAsset
                  { available := sb.available, locked := sb.locked - baseAmount })
                seller quoteAsset quoteAmount = l' := by
              injection h
            subst hl'
            refine ⟨bq, sb, rfl, hlq, rfl, hlb, ?_, ?_, ?_, ?_, ?_⟩
            · rw [getBalance_upsertAvailable_ne _ _ _ _ _ _ hbq'',
                getBalance_setBalance_ne _ _ _ _ _ _ hbq',
                getBalance_upsertAvailable_ne _ _ _ _ _ _ hqb,
                getBalance_setBalance_self _ _ _ _ (by simp [hbq])]
            · rw [getBalance_upsertAvailable_ne _ _ _ _ _ _ hbb'',
                getBalance_setBalance_ne _ _ _ _ _ _ hbb',
                getBalance_upsertAvailable_self,
                getBalance_setBalance_ne _ _ _ _ _ _ hqb.symm]
            · rw [getBalance_upsertAvailable_ne _ _ _ _ _ _ hsq.symm,
                getBalance_setBalance_self _ _ _ _ (by simp [hsb1, hsb])]
            · rw [getBalance_upsertAvailable_self,
                getBalance_setBalance_ne _ _ _ _ _ _ hsq,
                getBalance_upsertAvailable_ne _ _ _ _ _ _ (fun h => hbb'' h.symm),
                getBalance_setBalance_ne _ _ _ _ _ _ (fun h => hbq'' h.symm)]
            · intro u b h1 h2 h3 h4
              rw [getBalance_upsertAvailable_ne _ _ _ _ _ _ h4,
                getBalance_setBalance_ne _ _ _ _ _ _ h3,
                getBalance_upsertAvailable_ne _ _ _ _ _ _ h2,
                getBalance_setBalance_ne _ _ _ _ _ _ h1]
          · constructor
            · rintro ⟨e, he⟩
              exact absurd he (by simp)
            · intro hcon
              exact absurd ⟨⟨bq, rfl, hlq⟩, ⟨sb, rfl, hlb⟩⟩ hcon
        · simp only [if_neg hlb]
          refine ⟨fun l' h => absurd h (by simp), ?_⟩
          constructor
          · rintro - ⟨-, ⟨sb2, hsb2, hlb2⟩⟩
            have hss : sb = sb2 := by injection hsb2
            subst hss
            exact hlb hlb2
          · exact fun _ => ⟨FillError.decreaseLockedFailed, rfl⟩
    · simp only [if_neg hlq]
      refine ⟨fun l' h => absurd h (by simp), ?_⟩
      constructor
      · rintro - ⟨⟨bq2, hbq2, hlq2⟩, -⟩
        have hqq : bq = bq2 := by injection hbq2
        subst hqq
        exact hlq hlq2
      · exact fun _ => ⟨FillError.decreaseLockedFailed, rfl⟩

/-- Concrete ledger for the C9 witness: buyer 1 has 50 USD locked, seller
2 has 1 BTC locked. -/
def l9 : Ledger :=
  [((1, "USD"), { available := 0, locked := 50 }),
   ((2, "BTC"), { available := 0, locked := 1 })]

/-- The ledger after filling 1 BTC at 50 USD between buyer 1 and seller 2. -/
def l9' : Ledger :=
  [((1, "USD"), { available := 0, locked := 0 }),
   ((2, "BTC"), { available := 0, locked := 0 }),
   ((1, "BTC"), { available := 1, locked := 0 }),
   ((2, "USD"), { available := 50, locked := 0 })]

/-- Witness for C9: the concrete fill moves all four legs at once. -/
theorem c9_applyFill_atomic_witness :
    ∃ bq sb, getBalance l9 1 "USD" = some bq ∧ (50 : Rat) ≤ bq.locked ∧
      getBalance l9 2 "BTC" = some sb ∧ (1 : Rat) ≤ sb.locked ∧
      getBalance l9' 1 "USD" =
        some { available := bq.available, locked := bq.locked - 50 } ∧
      getBalance l9' 1 "BTC" =
        some (creditAvailable (getBalance l9 1 "BTC") 1) ∧
      getBalance l9' 2 "BTC" =
        some { available := sb.available, locked := sb.locked - 1 } ∧
      getBalance l9' 2 "USD" =
        some (creditAvailable (getBalance l9 2 "USD") 50) ∧
      (∀ (u : Nat) (b : String), (u, b) ≠ (1, "USD") → (u, b) ≠ (1, "BTC") →
        (u, b) ≠ (2, "BTC") → (u, b) ≠ (2, "USD") →
        getBalance l9' u b = getBalance l9 u b) :=
  (c9_applyFill_atomic l9 1 2 "BTC" "USD" 1 50 (by decide) (by decide)).1 l9' rfl

/-! ## Handler lock/unlock round trip (C10) -/

theorem c10_core (l : Ledger) (u oid : Nat) (req : CreateOrderRequest)
    (hnn : ∀ (u' : Nat) (a' : String) (b : Balance), getBalance l u' a' = some b → 0 ≤ b.locked)
    (bA qA ast : String) (A : Rat)
    (hs : splitSymbol req.symbol = [bA, qA]) (hA : 0 < A)
    (hunlock : (if req.side = "buy" then
        if req.otype = "limit" then
          Except.ok (qA, (if req.otype = "limit" then req.price else 0) * req.quantity)
        else (Except.error HandlerError.marketBuyCancelPending :
          Except HandlerError (String × Rat))
      else Except.ok (bA, req.quantity)) = Except.ok (ast, A))
    (l1 : Ledger) (order : Order)
    (h : (match LockFunds (getOrCreateBalance l u ast) u ast A with
          | Except.error e => Except.error (HandlerError.lockFailed e)
          | Except.ok l2 => Except.ok (l2,
              ({ id := oid, userId := u, symbol := req.symbol, otype := req.otype,
                 side := req.side, price := if req.otype = "limit" then req.price else 0,
                 quantity := req.quantity, status := "open" } : Order))) =
        Except.ok (l1, order)) :
    ∃ b0 : Balance, getBalance l u ast = some b0 ∧
      getBalance l1 u ast = some { available := b0.available - A, locked := b0.locked + A } ∧
      ∃ l2, CancelOrderHandler l1 [order] u oid =
          Except.ok (l2, [{ order with status := "cancelled" }]) ∧
        ∀ (u' : Nat) (a' : String), getBalance l2 u' a' = getBalance l u' a' := by
  cases hlf : LockFunds (getOrCreateBalance l u ast) u ast A with
  | error e =>
    rw [hlf] at h
    exact absurd h (by simp)
  | ok lk =>
    rw [hlf] at h
    injection h with hpair
    rw [Prod.mk.injEq] at hpair
    obtain ⟨hl1, horder⟩ := hpair
    subst hl1
    have hfid : order.id = oid := by rw [← horder]
    have hfuid : order.userId = u := by rw [← horder]
    have hfsym : order.symbol = req.symbol := by rw [← horder]
    have hfotype : order.otype = req.otype := by rw [← horder]
    have hfside : order.side = req.side := by rw [← horder]
    have hfprice : order.price = if req.otype = "limit" then req.price else 0 := by
      rw [← horder]
    have hfqty : order.quantity = req.quantity := by rw [← horder]
    have hfstatus : order.status = "open" := by rw [← horder]
    cases hrow : getBalance l u ast with
    | none =>
      have hgc : getOrCreateBalance l u ast =
          l ++ [((u, ast), { available := 0, locked := 0 })] := by
        rw [getOrCreateBalance, hrow]
      have hget : getBalance (l ++ [((u, ast), { available := 0, locked := 0 })]) u ast =
          some { available := 0, locked := 0 } := by
        rw [getBalance_append_single, hrow]
        simp
      rw [hgc, LockFunds, if_neg (not_le.mpr hA)] at hlf
      simp only [hget] at hlf
      simp [ge_iff_le, not_le.mpr hA] at hlf
    | some b0 =>
      have hgc : getOrCreateBalance l u ast = l := by
        rw [getOrCreateBalance, hrow]
      rw [hgc, LockFunds, if_neg (not_le.mpr hA)] at hlf
      simp only [hrow] at hlf
      by_cases hav : b0.available ≥ A
      · rw [if_pos hav] at hlf
        have hset : setBalance l u ast
            { available := b0.available - A, locked := b0.locked + A } = lk := by
          injection hlf
        subst hset
        have hself : getBalance (setBalance l u ast
            { available := b0.available - A, locked := b0.locked + A }) u ast =
            some { available := b0.available - A, locked := b0.locked + A } :=
          getBalance_setBalance_self _ _ _ _ (by simp [hrow])
        refine ⟨b0, rfl, hself, ?_⟩
        have hguard : A ≤ b0.locked + A :=
          (le_add_iff_nonneg_left A).mpr (hnn u ast b0 hrow)
        have hub : UnlockFunds (setBalance l u ast
            { available := b0.available - A, locked := b0.locked + A }) u ast A =
            Except.ok (setBalance (setBalance l u ast
              { available := b0.available - A, locked := b0.locked + A }) u ast
              { available := b0.available - A + A, locked := b0.locked + A - A }) := by
          rw [UnlockFunds, if_neg (not_le.mpr hA)]
          simp only [hself]
          rw [if_pos hguard]
        refine ⟨setBalance (setBalance l u ast
            { available := b0.available - A, locked := b0.locked + A }) u ast
            { available := b0.available - A + A, locked := b0.locked + A - A }, ?_, ?_⟩
        · have hfind : List.find? (fun o => decide (o.id = oid ∧ o.userId = u)) [order] =
              some order := by
            simp [List.find?, hfid, hfuid]
          have hdb : dbCancelOrder [order] u oid =
              Except.ok (order, [{ order with status := "cancelled" }]) := by
            rw [dbCancelOrder]
            simp only [hfind]
            rw [if_neg (fun hne => hne hfstatus)]
            simp [hfid, hfstatus]
          rw [CancelOrderHandler]
          simp only [hdb]
          simp only [hfsym, hs]
          rw [hfside, hfotype, hfprice, hfqty, hunlock]
          simp only [hub]
        · intro u' a'
          by_cases hk : ((u', a') : Nat × String) = (u, ast)
          · have hu' : u' = u := congrArg Prod.fst hk
            have ha' : a' = ast := congrArg Prod.snd hk
            subst hu'
            subst ha'
            rw [getBalance_setBalance_self _ _ _ _ (by simp [hself]), hrow,
              sub_add_cancel, add_sub_cancel_right]
          · rw [getBalance_setBalance_ne _ _ _ _ _ _ hk, getBalance_setBalance_ne _ _ _ _ _ _ hk]
      · rw [if_neg hav] at hlf
        exact absurd hlf (by simp)

/-- C10: for a request passing validation (well-formed BASE-QUOTE symbol,
positive quantity, positive price for limit orders, valid side and type,
balances with non-negative locked amounts as the data model requires), the
create-order handler locks `price * quantity` of the quote asset for a
limit buy and `quantity` of the base asset for a sell, rejects a market
buy before touching the ledger, and the cancel handler applied to the
still-open order unlocks exactly the same asset and amount, returning a
ledger whose every (user, asset) balance equals its pre-creation value. -/
theorem c10_lock_unlock_roundtrip (l : Ledger) (u oid : Nat) (req : CreateOrderRequest)
    (hnn : ∀ (u' : Nat) (a' : String) (b : Balance), getBalance l u' a' = some b → 0 ≤ b.locked)
    (bA qA : String) (hs : splitSymbol req.symbol = [bA, qA])
    (hbA : bA ≠ "") (hqA : qA ≠ "") (hsym0 : req.symbol ≠ "")
    (hside : req.side = "buy" ∨ req.side = "sell")
    (hot : req.otype = "limit" ∨ req.otype = "market")
    (hpx : req.otype = "limit" → 0 < req.price) (hqty : 0 < req.quantity) :
    (req.side = "buy" → req.otype = "market" →
      CreateOrderHandler l u oid req = Except.error HandlerError.marketBuyNotSupported) ∧
    (∀ l1 order, CreateOrderHandler l u oid req = Except.ok (l1, order) →
      ∃ b0 : Balance,
        getBalance l u (if req.side = "buy" then qA else bA) = some b0 ∧
        getBalance l1 u (if req.side = "buy" then qA else bA) =
          some { available := b0.available -
                   (if req.side = "buy" then req.price * req.quantity else req.quantity),
                 locked := b0.locked +
                   (if req.side = "buy" then req.price * req.quantity else req.quantity) } ∧
        (req.side = "buy" → req.otype = "limit") ∧
        (∃ l2, CancelOrderHandler l1 [order] u oid =
            Except.ok (l2, [{ order with status := "cancelled" }]) ∧
          ∀ (u' : Nat) (a' : String), getBalance l2 u' a' = getBalance l u' a')) := by
  have hsym : ¬(req.symbol = "" ∨ req.quantity ≤ 0) := by
    rintro (h | h)
    · exact hsym0 h
    · exact absurd h (not_le.mpr hqty)
  have hY : ¬(bA = "" ∨ qA = "") := by
    rintro (h | h)
    · exact hbA h
    · exact hqA h
  have hS : ¬¬(req.side = "buy" ∨ req.side = "sell") := not_not_intro hside
  have hT : ¬¬(req.otype = "limit" ∨ req.otype = "market") := not_not_intro hot
  have hP : ¬(req.otype = "limit" ∧ req.price ≤ 0) := by
    rintro ⟨h1, h2⟩
    exact absurd h2 (not_le.mpr (hpx h1))
  constructor
  · intro hbuy hmkt
    have hnl : req.otype ≠ "limit" := by
      rw [hmkt]
      decide
    simp only [CreateOrderHandler, if_neg hsym, hs, if_neg hY, if_neg hS, if_neg hT,
      if_neg hP, if_pos hbuy, if_neg hnl]
  · intro l1 order h
    simp only [CreateOrderHandler, if_neg hsym, hs, if_neg hY, if_neg hS, if_neg hT,
      if_neg hP] at h
    by_cases hbuy : req.side = "buy"
    · -- buy side: a market buy never reaches the success case
      by_cases hlim : req.otype = "limit"
      · rw [if_pos hbuy, if_pos hlim] at h
        simp only [if_pos hbuy]
        obtain ⟨b0, h1, h2, l2, hcl, hrest⟩ :=
          c10_core l u oid req hnn bA qA qA (req.price * req.quantity) hs
            (mul_pos (hpx hlim) hqty)
            (by rw [if_pos hbuy, if_pos hlim, if_pos hlim]) l1 order h
        exact ⟨b0, h1, h2, fun _ => hlim, l2, hcl, hrest⟩
      · rw [if_pos hbuy, if_neg hlim] at h
        exact absurd h (by simp)
    · rw [if_neg hbuy] at h
      simp only [if_neg hbuy]
      obtain ⟨b0, h1, h2, l2, hcl, hrest⟩ :=
        c10_core l u oid req hnn bA qA bA req.quantity hs hqty
          (by rw [if_neg hbuy]) l1 order h
      exact ⟨b0, h1, h2, fun hb => absurd hb hbuy, l2, hcl, hrest⟩

/-- Concrete ledger for the C10 witness: user 7 holds 1000 USD available. -/
def l10 : Ledger := [((7, "USD"), { available := 1000, locked := 0 })]

/-- The C10 witness request: a limit buy of 3 BTC at 10 USD. -/
def req10 : CreateOrderRequest :=
  { symbol := "BTC-USD", otype := "limit", side := "buy", price := 10, quantity := 3 }

/-- Ledger after creating the witness order: 30 USD moved to locked. -/
def l10a : Ledger := [((7, "USD"), { available := 970, locked := 30 })]

/-- The order row the witness create produces. -/
def order10 : Order :=
  { id := 42, userId := 7, symbol := "BTC-USD", otype := "limit", side := "buy",
    price := 10, quantity := 3, status := "open" }

/-- Witness for C10: creating the limit buy locks 30 USD and cancelling it
restores user 7's USD balance exactly. -/
theorem c10_lock_unlock_roundtrip_witness :
    ∃ b0 : Balance,
      getBalance l10 7 (if req10.side = "buy" then "USD" else "BTC") = some b0 ∧
      getBalance l10a 7 (if req10.side = "buy" then "USD" else "BTC") =
        some { available := b0.available -
                 (if req10.side = "buy" then req10.price * req10.quantity else req10.quantity),
               locked := b0.locked +
                 (if req10.side = "buy" then req10.price * req10.quantity else req10.quantity) } ∧
      (req10.side = "buy" → req10.otype = "limit") ∧
      (∃ l2, CancelOrderHandler l10a [order10] 7 42 =
          Except.ok (l2, [{ order10 with status := "cancelled" }]) ∧
        ∀ (u' : Nat) (a' : String), getBalance l2 u' a' = getBalance l10 u' a') :=
  (c10_lock_unlock_roundtrip l10 7 42 req10
    (by
      intro u' a' b h
      rw [show l10 = ((7, "USD"), { available := 1000, locked := 0 }) :: [] from rfl,
        getBalance_cons] at h
      by_cases hk : ((7, "USD") : Nat × String) = (u', a')
      · rw [if_pos hk] at h
        have hb : ({ available := 1000, locked := 0 } : Balance) = b := by injection h
        rw [← hb]
      · rw [if_neg hk] at h
        exact absurd h (by rw [getBalance_nil]; exact Option.noConfusion))
    "BTC" "USD" rfl (by decide) (by decide) (by decide) (Or.inl rfl) (Or.inl rfl)
    (fun _ => by decide) (by decide)).2 l10a order10 rfl

end Exchange
